import Mathlib

/-!
Shallow embedding of the move-ts-file import-path resolution and rewriting
engine, and proofs about its specification claims.

The embedding models the TypeScript sources of the repository:
  src/move-ts.ts              (TypeScriptFileMover: orchestrator)
  src/path-resolver.ts        (PathResolver.resolveWithExtensions, RelativePathResolver)
  src/tsconfig-path-resolver.ts (TsConfigPathResolver)
  src/package-imports-resolver.ts (PackageImportsResolver)
  src/workspace-resolver.ts   (WorkspaceResolver)
  src/barrel-analyzer.ts      (BarrelAnalyzer)
  src/config-loader.ts        (ConfigLoader.loadTsConfigPaths)

External collaborators (node:path, node:fs, the TypeScript parser) are modelled
explicitly: POSIX path semantics over segment lists, a file system as a finite
list of (path, content) pairs plus a directory list, and the parsing service as
a function from file content to the list of import/export references (the
repository treats parsing as a collaborator returning specifier text plus the
byte offsets of its quoted span).
-/

set_option maxRecDepth 8000

namespace MoveTs

/-! ### Character and string utilities (ASCII model of JS string operations) -/

/-- Boolean test that the char list p occurs at the head of the char list s. -/
def startsList : List Char → List Char → Bool
  | [], _ => true
  | _ :: _, [] => false
  | p :: ps, c :: cs => p == c && startsList ps cs

/-- Model of the JS String.startsWith. -/
def strStarts (s pre : String) : Bool :=
  startsList pre.data s.data

/-- Model of the JS String.endsWith. -/
def strEnds (s suf : String) : Bool :=
  startsList suf.data.reverse s.data.reverse

/-- Model of the JS String.includes for a single character. -/
def strContainsChar (s : String) (c : Char) : Bool :=
  s.data.any (· == c)

/-- Model of the JS String.substring(0, n): the first n characters. -/
def takeChars (s : String) (n : Nat) : String :=
  String.mk (s.data.take n)

/-- Model of the JS String.substring(n): all characters from position n. -/
def dropChars (s : String) (n : Nat) : String :=
  String.mk (s.data.drop n)

/-- Model of the JS String.slice(0, -1): drop the final character. -/
def chopLast (s : String) : String :=
  takeChars s (s.data.length - 1)

/-- Model of the JS String.toLowerCase restricted to ASCII. -/
def lowerStr (s : String) : String :=
  String.mk (s.data.map Char.toLower)

/-- Model of the JS replace of every backslash by a forward slash. -/
def backslashToSlash (s : String) : String :=
  String.mk (s.data.map fun c => if c == '\\' then '/' else c)

/-- Word character in the sense of the regex class used by the source. -/
def isWordChar (c : Char) : Bool :=
  c.isAlphanum || c == '_'

/-- Splits a char list at a separator character, keeping empty pieces. -/
def splitCharAux (sep : Char) : List Char → List Char → List (List Char)
  | [], acc => [acc.reverse]
  | c :: cs, acc =>
    if c == sep then acc.reverse :: splitCharAux sep cs []
    else splitCharAux sep cs (c :: acc)

/-- Splits a string on a separator character. -/
def splitChar (sep : Char) (s : String) : List String :=
  (splitCharAux sep s.data []).map String.mk

/-- Joins strings with a forward slash between them. -/
def joinSlash : List String → String
  | [] => ""
  | [s] => s
  | s :: rest => s ++ "/" ++ joinSlash rest

/-- Index of the first occurrence of a character in a char list. -/
def findIdxChar (c : Char) : List Char → Option Nat
  | [] => none
  | x :: xs =>
    if x == c then some 0
    else (findIdxChar c xs).map (· + 1)

/--
Model of matching the anchored regex that recognises a dot followed by one or
more word characters at the end of a string, as the source uses to detect a
trailing extension. The match succeeds exactly when the text after the last
dot is nonempty and consists of word characters, and it returns that final
dot-suffix.
-/
def matchDotWordExt (s : String) : Option String :=
  match findIdxChar '.' s.data.reverse with
  | none => none
  | some i =>
    let suffix := s.data.reverse.take i |>.reverse
    if suffix.length > 0 && suffix.all isWordChar then
      some (String.mk ('.' :: suffix))
    else none

/-- Model of the JS replace of that trailing dot-extension by the empty string. -/
def stripDotWordExt (s : String) : String :=
  match matchDotWordExt s with
  | none => s
  | some e => takeChars s (s.data.length - e.data.length)

/-- Model of the JS replace of a trailing .ts or .tsx by the empty string. -/
def stripTsTsx (s : String) : String :=
  if strEnds s ".tsx" then takeChars s (s.data.length - 4)
  else if strEnds s ".ts" then takeChars s (s.data.length - 3)
  else s

/-- Model of the JS replace of a trailing .js or .jsx by the empty string. -/
def stripJsJsx (s : String) : String :=
  if strEnds s ".jsx" then takeChars s (s.data.length - 4)
  else if strEnds s ".js" then takeChars s (s.data.length - 3)
  else s

/-- Model of the JS replace of a trailing .ts, .tsx, .js or .jsx. -/
def stripJtsx (s : String) : String :=
  if strEnds s ".tsx" || strEnds s ".jsx" then takeChars s (s.data.length - 4)
  else if strEnds s ".ts" || strEnds s ".js" then takeChars s (s.data.length - 3)
  else s

/-- Model of the JS String.replace with a plain-string pattern: replaces the
first occurrence of the star character by the given string. -/
def replaceFirstStar (s repl : String) : String :=
  match findIdxChar '*' s.data with
  | none => s
  | some i => String.mk (s.data.take i ++ repl.data ++ s.data.drop (i + 1))

/-- Model of the JS replace of a trailing star by the empty string. -/
def stripStarSuffix (s : String) : String :=
  if strEnds s "*" then chopLast s else s

/-! ### POSIX path model (node:path semantics over segment lists) -/

/-- True when the path begins with a forward slash. -/
def isAbsPath (s : String) : Bool :=
  match s.data with
  | '/' :: _ => true
  | _ => false

/-- Splits a path into its slash-separated segments, keeping empty ones. -/
def splitSegs (s : String) : List String :=
  splitChar '/' s

/-- The nonempty segments of a path. -/
def pathSegs (s : String) : List String :=
  (splitSegs s).filter (· != "")

/-- One step of absolute-path normalization over a reversed segment stack:
dot and empty segments vanish, dot-dot pops, and anything above the root is
dropped (node:path semantics for absolute paths). -/
def normStep (rev : List String) (seg : String) : List String :=
  if seg == "" || seg == "." then rev
  else if seg == ".." then rev.tail
  else seg :: rev

/-- Normalizes an absolute path string (node:path resolve on one absolute
argument). -/
def normAbs (s : String) : String :=
  "/" ++ joinSlash (((splitSegs s).foldl normStep []).reverse)

/-- Model of node:path resolve(base, p) where base is an absolute path. -/
def resolvePath (base p : String) : String :=
  if isAbsPath p then normAbs p else normAbs (base ++ "/" ++ p)

/-- Model of node:path join(a, b) for an absolute a. -/
def joinPath (a b : String) : String :=
  normAbs (a ++ "/" ++ b)

/-- Model of node:path dirname for an absolute path. -/
def dirnameAbs (s : String) : String :=
  let segs := pathSegs s
  if segs.length ≤ 1 then "/" else "/" ++ joinSlash segs.dropLast

/-- Model of node:path basename: the last nonempty segment. -/
def baseName (s : String) : String :=
  (pathSegs s).getLast?.getD ""

/-- Length of the common leading run of two segment lists. -/
def countCommon : List String → List String → Nat
  | a :: as, b :: bs => if a == b then countCommon as bs + 1 else 0
  | _, _ => 0

/-- Model of node:path relative(f, t) for absolute f and t: strip the common
prefix, go up once per remaining segment of f, then descend into t. -/
def relativePath (f t : String) : String :=
  let fsegs := (splitSegs (normAbs f)).filter (· != "")
  let tsegs := (splitSegs (normAbs t)).filter (· != "")
  let common := countCommon fsegs tsegs
  joinSlash (List.replicate (fsegs.length - common) ".." ++ tsegs.drop common)

/-- Model of node:path extname: the suffix of the basename from its last dot,
empty when the basename has no dot or only a leading dot. -/
def extnamePath (s : String) : String :=
  let b := baseName s
  match findIdxChar '.' b.data.reverse with
  | none => ""
  | some i =>
    let pos := b.data.length - 1 - i
    if pos == 0 then "" else String.mk (b.data.drop pos)

/-! ### File-system model (node:fs semantics over a finite file list) -/

/-- A file system: a finite association of absolute file paths to contents,
plus a list of directories known to exist. -/
structure FS where
  files : List (String × String)
  dirs : List String
deriving DecidableEq, Repr

/-- Model of fs.existsSync: a path exists when it is a file or a directory. -/
def existsSync (fs : FS) (p : String) : Bool :=
  fs.files.any (fun f => f.1 == p) || fs.dirs.any (· == p)

/-- Model of reading a file: the content at the path, if any. -/
def readFileQ (fs : FS) (p : String) : Option String :=
  (fs.files.find? (fun f => f.1 == p)).map (·.2)

/-- Model of writing a file: replaces the content at the path, or appends the
file when absent. -/
def writeFileQ (fs : FS) (p c : String) : FS :=
  if fs.files.any (fun f => f.1 == p) then
    { fs with files := fs.files.map fun f => if f.1 == p then (p, c) else f }
  else
    { fs with files := fs.files ++ [(p, c)] }

/-- Model of fs.renameSync on a file: the entry moves to the new path with the
same content; a missing source leaves the file system unchanged. -/
def renameQ (fs : FS) (src dst : String) : FS :=
  match readFileQ fs src with
  | none => fs
  | some c => { fs with files := (fs.files.filter fun f => f.1 != src) ++ [(dst, c)] }

/-- Model of mkdir recursive: records the directory as existing. -/
def mkdirpQ (fs : FS) (d : String) : FS :=
  if fs.dirs.any (· == d) then fs else { fs with dirs := fs.dirs ++ [d] }

end MoveTs

namespace MoveTs

/-! ### Configuration data (src/types.ts) -/

/-- Information about one TypeScript path mapping, as in src/types.ts.
The source field named alias is rendered aliasRaw here because alias is a
reserved command name in Lean. -/
structure PathMappingInfo where
  aliasRaw : String
  aliasPattern : String
  pathPattern : String
  basePath : String
deriving DecidableEq, Repr

/-- Node package-imports data for one package.json, as in src/types.ts.
The map values string-or-list are uniformly rendered as lists; the source
wraps a lone string into a one-element array before use. -/
structure PackageImportsInfo where
  imports : List (String × List String)
  packageRoot : String
deriving DecidableEq, Repr

/-- One discovered workspace package, as in src/workspace-resolver.ts
(the packageJson field is omitted: only name and root are read). -/
structure WorkspaceInfo where
  name : String
  root : String
deriving DecidableEq, Repr

/-- One import or export reference in a file, as in src/types.ts.
The source field named end is rendered endPos. -/
structure ImportReference where
  specifier : String
  start : Nat
  endPos : Nat
  isExport : Bool
  newPath : Option String := none
deriving DecidableEq, Repr

/-- A planned rewrite of one file, as in src/types.ts. -/
structure FileUpdate where
  filePath : String
  content : String
  references : List ImportReference
deriving DecidableEq, Repr

/-! ### PathResolver.resolveWithExtensions (src/path-resolver.ts lines 193-218) -/

/-- The recognized source-file extensions probed by the resolvers. -/
def extensions : List String := [".ts", ".tsx", ".js", ".jsx"]

namespace PathResolver

/-- Model of PathResolver.resolveWithExtensions: probe the exact path, then
the path with each extension appended, then the path as a directory holding
an index file with each extension; first existing probe wins. -/
def resolveWithExtensions (fs : FS) (basePath : String) : Option String :=
  if existsSync fs basePath then some basePath
  else
    match extensions.findSome? (fun ext =>
        let pathWithExt := basePath ++ ext
        if existsSync fs pathWithExt then some pathWithExt else none) with
    | some p => some p
    | none =>
      extensions.findSome? fun ext =>
        let indexPath := joinPath basePath ("index" ++ ext)
        if existsSync fs indexPath then some indexPath else none

end PathResolver

/-! ### RelativePathResolver (src/path-resolver.ts lines 226-294) -/

namespace RelativePathResolver

/-- Model of RelativePathResolver.resolveImportPath. -/
def resolveImportPath (fs : FS) (specifier fromFile : String) : Option String :=
  if !strStarts specifier "." && !strStarts specifier "/" then none
  else
    let fromDir := dirnameAbs fromFile
    let resolved := resolvePath fromDir specifier
    PathResolver.resolveWithExtensions fs resolved

/-- Model of RelativePathResolver.calculateNewImportPath: always produces a
specifier (the function never returns null in the source). -/
def calculateNewImportPath (_oldSpecifier fromFile newPath : String) : Option String :=
  let fromDir := dirnameAbs fromFile
  let step1 := relativePath fromDir newPath
  let step2 := backslashToSlash step1
  let step3 := stripTsTsx step2
  let step4 := if !strStarts step3 "." then "./" ++ step3 else step3
  some step4

end RelativePathResolver

/-! ### TsConfigPathResolver (src/tsconfig-path-resolver.ts) -/

namespace TsConfigPathResolver

/-- Model of TsConfigPathResolver.matchesAlias. -/
def matchesAlias (specifier : String) (pathInfo : PathMappingInfo) : Bool :=
  if strEnds pathInfo.aliasRaw "*" then strStarts specifier pathInfo.aliasPattern
  else specifier == pathInfo.aliasPattern

/-- Model of TsConfigPathResolver.resolveTsPath. -/
def resolveTsPath (fs : FS) (specifier : String) (pathInfo : PathMappingInfo) :
    Option String :=
  let resolvedPath :=
    if strEnds pathInfo.aliasRaw "*" then
      let remainder := dropChars specifier pathInfo.aliasPattern.data.length
      resolvePath pathInfo.basePath (pathInfo.pathPattern ++ remainder)
    else
      resolvePath pathInfo.basePath pathInfo.pathPattern
  PathResolver.resolveWithExtensions fs resolvedPath

/-- Model of TsConfigPathResolver.resolveImportPath: first matching alias rule
whose target resolves to an existing file wins; iteration follows the map
entry order then the per-alias rule order. -/
def resolveImportPath (tsConfigPaths : List (String × List PathMappingInfo))
    (fs : FS) (specifier : String) (_fromFile : String) : Option String :=
  tsConfigPaths.findSome? fun entry =>
    entry.2.findSome? fun pathInfo =>
      if matchesAlias specifier pathInfo then
        (resolveTsPath fs specifier pathInfo).bind fun resolvedPath =>
          if existsSync fs resolvedPath then some resolvedPath else none
      else none

/-- Model of TsConfigPathResolver.findMatchingPathInfo. -/
def findMatchingPathInfo (tsConfigPaths : List (String × List PathMappingInfo))
    (specifier : String) : Option PathMappingInfo :=
  tsConfigPaths.findSome? fun entry =>
    entry.2.find? fun pathInfo => matchesAlias specifier pathInfo

/-- Model of TsConfigPathResolver.findMatchingPathMapping. -/
def findMatchingPathMapping (tsConfigPaths : List (String × List PathMappingInfo))
    (newPath : String) : Option String :=
  tsConfigPaths.findSome? fun entry =>
    entry.2.findSome? fun pathInfo =>
      let newRelativeFromBase := backslashToSlash (relativePath pathInfo.basePath newPath)
      if strEnds pathInfo.aliasRaw "*" then
        if strStarts newRelativeFromBase pathInfo.pathPattern then
          let remainder := dropChars newRelativeFromBase pathInfo.pathPattern.data.length
          some (pathInfo.aliasPattern ++ stripTsTsx remainder)
        else none
      else none

/-- Model of TsConfigPathResolver.calculateTsConfigImportPath. -/
def calculateTsConfigImportPath (tsConfigPaths : List (String × List PathMappingInfo))
    (_oldSpecifier newPath : String) (pathInfo : PathMappingInfo) : Option String :=
  if strEnds pathInfo.aliasRaw "*" then
    let newRelativeFromBase := backslashToSlash (relativePath pathInfo.basePath newPath)
    if strStarts newRelativeFromBase pathInfo.pathPattern then
      let newRemainder := dropChars newRelativeFromBase pathInfo.pathPattern.data.length
      some (pathInfo.aliasPattern ++ stripTsTsx newRemainder)
    else
      findMatchingPathMapping tsConfigPaths newPath
  else
    findMatchingPathMapping tsConfigPaths newPath

/-- Model of TsConfigPathResolver.calculateNewImportPath. -/
def calculateNewImportPath (tsConfigPaths : List (String × List PathMappingInfo))
    (oldSpecifier : String) (_fromFile : String) (newPath : String) : Option String :=
  (findMatchingPathInfo tsConfigPaths oldSpecifier).bind fun pathInfo =>
    calculateTsConfigImportPath tsConfigPaths oldSpecifier newPath pathInfo

end TsConfigPathResolver

/-! ### PackageImportsResolver (src/package-imports-resolver.ts) -/

namespace PackageImportsResolver

/-- Model of PackageImportsResolver.findPackageImportContext: the first loaded
package whose root is a string-prefix of the importing file path. -/
def findPackageImportContext (packageImports : List PackageImportsInfo)
    (fromFile : String) : Option PackageImportsInfo :=
  packageImports.find? fun packageInfo => strStarts fromFile packageInfo.packageRoot

/-- Model of PackageImportsResolver.matchesPackageImport. -/
def matchesPackageImport (specifier importKey : String) : Bool :=
  if strEnds importKey "*" then strStarts specifier (chopLast importKey)
  else specifier == importKey

/-- Model of PackageImportsResolver.resolvePackageImportPath. -/
def resolvePackageImportPath (fs : FS) (specifier importKey : String)
    (importValue : List String) (packageRoot : String) : Option String :=
  importValue.findSome? fun value =>
    let resolvedPath :=
      if strEnds importKey "*" && strContainsChar value '*' then
        let pattern := chopLast importKey
        let remainder := dropChars specifier pattern.data.length
        resolvePath packageRoot (replaceFirstStar value remainder)
      else
        resolvePath packageRoot value
    PathResolver.resolveWithExtensions fs resolvedPath

/-- Model of PackageImportsResolver.resolveImportPath. -/
def resolveImportPath (packageImports : List PackageImportsInfo) (fs : FS)
    (specifier fromFile : String) : Option String :=
  if !strStarts specifier "#" then none
  else
    (findPackageImportContext packageImports fromFile).bind fun packageInfo =>
      packageInfo.imports.findSome? fun entry =>
        if matchesPackageImport specifier entry.1 then
          (resolvePackageImportPath fs specifier entry.1 entry.2 packageInfo.packageRoot).bind
            fun resolvedPath =>
              if existsSync fs resolvedPath then some resolvedPath else none
        else none

/-- Model of PackageImportsResolver.calculatePackageImportPath. -/
def calculatePackageImportPath (oldSpecifier newPath : String)
    (packageInfo : PackageImportsInfo) : Option String :=
  packageInfo.imports.findSome? fun entry =>
    if matchesPackageImport oldSpecifier entry.1 then
      entry.2.findSome? fun value =>
        if strEnds entry.1 "*" && strContainsChar value '*' then
          let pattern := chopLast entry.1
          let newRelativeFromPackage :=
            backslashToSlash (relativePath packageInfo.packageRoot newPath)
          let expectedValuePattern := stripJsJsx (replaceFirstStar value "")
          if strStarts newRelativeFromPackage expectedValuePattern then
            let newRemainder :=
              dropChars newRelativeFromPackage expectedValuePattern.data.length
            some (pattern ++ stripTsTsx newRemainder)
          else none
        else none
    else none

/-- Model of PackageImportsResolver.calculateNewImportPath. -/
def calculateNewImportPath (packageImports : List PackageImportsInfo)
    (oldSpecifier fromFile newPath : String) : Option String :=
  (findPackageImportContext packageImports fromFile).bind fun packageInfo =>
    calculatePackageImportPath oldSpecifier newPath packageInfo

end PackageImportsResolver

/-! ### WorkspaceResolver (src/workspace-resolver.ts) -/

namespace WorkspaceResolver

/-- Model of the anchored regex that splits a specifier of the shape
at-scope slash package slash module-path into the package name and the
nonempty module path. -/
def parseWorkspaceSpecifier (specifier : String) : Option (String × String) :=
  match splitSegs specifier with
  | s0 :: s1 :: rest =>
    let modulePath := joinSlash rest
    if strStarts s0 "@" && decide (2 ≤ s0.data.length) && s1 != "" && modulePath != "" then
      some (s0 ++ "/" ++ s1, modulePath)
    else none
  | _ => none

/-- Model of the fixed list of conventional locations probed for a workspace
module path. -/
def possiblePaths (root modulePath : String) : List String :=
  [ joinPath (joinPath root "src") (modulePath ++ ".ts"),
    joinPath (joinPath root "src") (modulePath ++ ".tsx"),
    joinPath (joinPath (joinPath root "src") modulePath) "index.ts",
    joinPath (joinPath (joinPath root "src") modulePath) "index.tsx",
    joinPath root (modulePath ++ ".ts"),
    joinPath root (modulePath ++ ".tsx"),
    joinPath (joinPath root modulePath) "index.ts",
    joinPath (joinPath root modulePath) "index.tsx" ]

/-- Model of WorkspaceResolver.resolveImportPath. -/
def resolveImportPath (workspaces : List WorkspaceInfo) (fs : FS)
    (specifier : String) (_fromFile : String) : Option String :=
  (parseWorkspaceSpecifier specifier).bind fun parsed =>
    (workspaces.find? fun w => w.name == parsed.1).bind fun workspace =>
      (possiblePaths workspace.root parsed.2).find? fun path => existsSync fs path

/-- Model of WorkspaceResolver.calculateNewImportPath. -/
def calculateNewImportPath (workspaces : List WorkspaceInfo)
    (oldSpecifier : String) (_fromFile : String) (newPath : String) : Option String :=
  (parseWorkspaceSpecifier oldSpecifier).bind fun _ =>
    (workspaces.find? fun workspace =>
        let rel := relativePath workspace.root newPath
        !strStarts rel ".." && !strStarts rel "/").bind fun targetWorkspace =>
      let rel := relativePath targetWorkspace.root newPath
      let m1 := if strStarts rel "src/" then dropChars rel 4 else rel
      let m2 := stripTsTsx m1
      let m3 := if strEnds m2 "/index" then takeChars m2 (m2.data.length - 6) else m2
      some (targetWorkspace.name ++ "/" ++ m3)

end WorkspaceResolver

end MoveTs

namespace MoveTs

/-! ### TypeScriptFileMover (src/move-ts.ts) -/

/-- The initialized mover: project root, options, loaded configuration and the
parsing collaborator. The tsPaths and pkgImports fields are present exactly
when init constructed the corresponding resolver (the source only builds
TsConfigPathResolver and PackageImportsResolver for nonempty configuration);
workspaces holds the discovered workspace packages in discovery order. The
parse field models the external TypeScript parsing service of
ImportAnalyzer.extractImports: from file content it returns the references
whose start and endPos delimit the quoted span of each specifier. -/
structure MoverState where
  projectRoot : String
  updateBarrels : Bool
  dryRun : Bool
  tsPaths : Option (List (String × List PathMappingInfo))
  pkgImports : Option (List PackageImportsInfo)
  workspaces : List WorkspaceInfo
  parse : String → List ImportReference

namespace TypeScriptFileMover

/-- Model of TypeScriptFileMover.normalizePathForMatching (also duplicated in
BarrelAnalyzer): backslashes become slashes and the result is lowercased. -/
def normalizePathForMatching (filePath : String) : String :=
  lowerStr (backslashToSlash filePath)

/-- Model of TypeScriptFileMover.resolveImportPath: the four strategies tried
in the fixed order workspace, tsconfig paths, package imports, relative. -/
def resolveImportPath (st : MoverState) (fs : FS) (specifier fromFile : String) :
    Option String :=
  match WorkspaceResolver.resolveImportPath st.workspaces fs specifier fromFile with
  | some resolved => some resolved
  | none =>
    match (match st.tsPaths with
      | some tsConfigPaths =>
        TsConfigPathResolver.resolveImportPath tsConfigPaths fs specifier fromFile
      | none => none) with
    | some resolved => some resolved
    | none =>
      match (match st.pkgImports with
        | some packageImports =>
          PackageImportsResolver.resolveImportPath packageImports fs specifier fromFile
        | none => none) with
      | some resolved => some resolved
      | none => RelativePathResolver.resolveImportPath fs specifier fromFile

/-- Model of TypeScriptFileMover.calculateNewImportPath: with no recorded new
path the old specifier is kept; otherwise the four strategies are tried in
the fixed order, the relative strategy last, and a null answer from all of
them (impossible for the relative strategy) would keep the old specifier. -/
def calculateNewImportPath (st : MoverState) (oldSpecifier fromFile : String)
    (reference : ImportReference) : String :=
  match reference.newPath with
  | none => oldSpecifier
  | some newPath =>
    match WorkspaceResolver.calculateNewImportPath st.workspaces oldSpecifier fromFile newPath with
    | some next => next
    | none =>
      match (match st.tsPaths with
        | some tsConfigPaths =>
          TsConfigPathResolver.calculateNewImportPath tsConfigPaths oldSpecifier fromFile newPath
        | none => none) with
      | some next => next
      | none =>
        match (match st.pkgImports with
          | some packageImports =>
            PackageImportsResolver.calculateNewImportPath packageImports oldSpecifier fromFile newPath
          | none => none) with
        | some next => next
        | none =>
          (RelativePathResolver.calculateNewImportPath oldSpecifier fromFile newPath).getD
            oldSpecifier

/-- True when some path segment is the dependency cache directory. -/
def hasNodeModulesSeg (p : String) : Bool :=
  (splitSegs p).any (· == "node_modules")

/-- Model of the glob over the project for .ts and .tsx files, excluding the
dependency cache, in file-list order. -/
def globTsFiles (st : MoverState) (fs : FS) : List String :=
  (fs.files.map (·.1)).filter fun p =>
    (strEnds p ".ts" || strEnds p ".tsx") && strStarts p (st.projectRoot ++ "/")
      && !hasNodeModulesSeg p

/-- Model of ImportAnalyzer.analyzeFile: read the file and parse it; a read
failure yields the empty list (the source catches and warns). -/
def analyzeFile (st : MoverState) (fs : FS) (filePath : String) : List ImportReference :=
  match readFileQ fs filePath with
  | some content => st.parse content
  | none => []

/-- Model of TypeScriptFileMover.findAffectedFiles: every scanned project file
other than the moved file with at least one reference that resolves to the
moved file under the normalized comparison. -/
def findAffectedFiles (st : MoverState) (fs : FS) (sourcePath : String) : List String :=
  (globTsFiles st fs).filter fun file =>
    file != sourcePath &&
      (analyzeFile st fs file).any fun imp =>
        match resolveImportPath st fs imp.specifier file with
        | some resolvedImport =>
          normalizePathForMatching resolvedImport == normalizePathForMatching sourcePath
        | none => false

/-- Model of TypeScriptFileMover.calculateImportUpdates: for each affected
file, keep the references that resolve to the old path and attach the new
path; files with no relevant reference, or that fail to read, are skipped. -/
def calculateImportUpdates (st : MoverState) (fs : FS)
    (oldPath newPath : String) (affectedFiles : List String) : List FileUpdate :=
  affectedFiles.filterMap fun file =>
    match readFileQ fs file with
    | none => none
    | some content =>
      let imports := st.parse content
      let relevantImports := imports.filter fun imp =>
        match resolveImportPath st fs imp.specifier file with
        | some resolvedImport =>
          normalizePathForMatching resolvedImport == normalizePathForMatching oldPath
        | none => false
      if relevantImports.isEmpty then none
      else some { filePath := file, content := content,
                  references := relevantImports.map fun r => { r with newPath := some newPath } }

/-- Stable insertion of a reference into a list sorted by descending start. -/
def insertByStartDesc (r : ImportReference) : List ImportReference → List ImportReference
  | [] => [r]
  | x :: xs => if r.start ≤ x.start then x :: insertByStartDesc r xs else r :: x :: xs

/-- Model of the JS stable sort by descending start offset. -/
def sortByStartDesc (l : List ImportReference) : List ImportReference :=
  l.foldr insertByStartDesc []

/-- Splices a replacement specifier into content between the quotes of the
reference span, as the source does with substring arithmetic. -/
def spliceReference (content newImportPath : String) (start endPos : Nat) : String :=
  takeChars content (start + 1) ++ newImportPath ++ dropChars content (endPos - 1)

/-- Model of TypeScriptFileMover.updateImportStatements: per file, apply the
replacements in descending start order over the recorded original content and
write the result. -/
def updateImportStatements (st : MoverState) (fs : FS) (updates : List FileUpdate) : FS :=
  updates.foldl (fun fs update =>
    let sortedReferences := sortByStartDesc update.references
    let content := sortedReferences.foldl (fun content ref =>
      let newImportPath := calculateNewImportPath st ref.specifier update.filePath ref
      spliceReference content newImportPath ref.start ref.endPos) update.content
    writeFileQ fs update.filePath content) fs

/-- Model of TypeScriptFileMover.resolveDestination. -/
def resolveDestination (st : MoverState) (sourcePath destPath : String) : String :=
  let treatAsDir :=
    strEnds destPath "/" || (extnamePath destPath == "" && !strContainsChar destPath '.')
  if isAbsPath destPath then
    if treatAsDir then joinPath destPath (baseName sourcePath) else destPath
  else
    let resolvedDest := resolvePath st.projectRoot destPath
    if treatAsDir then joinPath resolvedDest (baseName sourcePath) else resolvedDest

end TypeScriptFileMover

/-! ### BarrelAnalyzer (src/barrel-analyzer.ts) -/

/-- One re-export in a barrel file that points at the moved file, as in
src/types.ts. The diagnostic fields (declaration text, named exports, star
flag) and the live AST node are omitted: the orchestration reads only the
file path, the specifier and its span, and the resolved path. -/
structure BarrelExport where
  filePath : String
  moduleSpecifier : String
  resolvedPath : String
  start : Nat
  endPos : Nat
deriving DecidableEq, Repr

namespace BarrelAnalyzer

/-- Model of the ts-morph project file set: every .ts or .tsx file under the
project root (the analyzer adds them without a dependency-cache exclusion). -/
def projectFiles (st : MoverState) (fs : FS) : List String :=
  (fs.files.map (·.1)).filter fun p =>
    (strEnds p ".ts" || strEnds p ".tsx") && strStarts p (st.projectRoot ++ "/")

/-- Model of BarrelAnalyzer.resolveToTsFile: strip any existing source
extension, then probe the bare path, the .ts and .tsx extension, and the two
index files. -/
def resolveToTsFile (fs : FS) (basePath : String) : Option String :=
  let baseWithoutExt := stripJtsx basePath
  ["", ".ts", ".tsx", "/index.ts", "/index.tsx"].findSome? fun ext =>
    let fullPath := baseWithoutExt ++ ext
    if existsSync fs fullPath then some fullPath else none

/-- Model of BarrelAnalyzer.resolveModuleSpecifier: relative specifiers only. -/
def resolveModuleSpecifier (fs : FS) (moduleSpecifier fromFile : String) : Option String :=
  if strStarts moduleSpecifier "." then
    resolveToTsFile fs (resolvePath (dirnameAbs fromFile) moduleSpecifier)
  else none

/-- Model of BarrelAnalyzer.findBarrelExports on one file: each export
declaration with a specifier resolving to the moved file, under the
normalized comparison. -/
def findBarrelExports (st : MoverState) (fs : FS) (filePath sourcePath : String) :
    List BarrelExport :=
  match readFileQ fs filePath with
  | none => []
  | some content =>
    (st.parse content).filterMap fun ref =>
      if ref.isExport then
        match resolveModuleSpecifier fs ref.specifier filePath with
        | some resolvedPath =>
          if TypeScriptFileMover.normalizePathForMatching resolvedPath ==
              TypeScriptFileMover.normalizePathForMatching sourcePath then
            some { filePath := filePath, moduleSpecifier := ref.specifier,
                   resolvedPath := resolvedPath, start := ref.start, endPos := ref.endPos }
          else none
        | none => none
      else none

/-- Model of BarrelAnalyzer.findBarrelImports: the project files, other than
the barrel itself, with an import declaration resolving to the barrel under
the normalized comparison. -/
def findBarrelImports (st : MoverState) (fs : FS) (barrelFilePath : String) :
    List String :=
  (projectFiles st fs).filter fun filePath =>
    filePath != barrelFilePath &&
      (TypeScriptFileMover.analyzeFile st fs filePath).any fun ref =>
        !ref.isExport &&
          match resolveModuleSpecifier fs ref.specifier filePath with
          | some resolvedPath =>
            TypeScriptFileMover.normalizePathForMatching resolvedPath ==
              TypeScriptFileMover.normalizePathForMatching barrelFilePath
          | none => false

/-- First-occurrence deduplication, as the source obtains from a JS Set. -/
def dedup (l : List String) : List String :=
  l.foldl (fun acc x => if acc.contains x then acc else acc ++ [x]) []

/-- Model of BarrelAnalyzer.analyzeBarrelImpact: the affected barrel exports
across all project files, and the deduplicated files importing from an
affected barrel. -/
def analyzeBarrelImpact (st : MoverState) (fs : FS) (sourcePath : String) :
    List BarrelExport × List String :=
  let step := (projectFiles st fs).foldl (fun acc sourceFile =>
    let barrelExports := findBarrelExports st fs sourceFile sourcePath
    if barrelExports.isEmpty then acc
    else (acc.1 ++ barrelExports, acc.2 ++ findBarrelImports st fs sourceFile)) ([], [])
  (step.1, dedup step.2)

/-- Model of BarrelAnalyzer.calculateNewModuleSpecifier: for a relative
specifier, the new relative path from the barrel directory, dot-prefixed,
with the original trailing-extension convention reapplied; other specifiers
are returned unchanged. -/
def calculateNewModuleSpecifier (oldSpecifier barrelFile newPath : String) : String :=
  if strStarts oldSpecifier "." then
    let rel0 := relativePath (dirnameAbs barrelFile) newPath
    let rel1 := if !strStarts rel0 "." then "./" ++ rel0 else rel0
    match matchDotWordExt oldSpecifier with
    | some oldExt => stripDotWordExt rel1 ++ oldExt
    | none => stripDotWordExt rel1
  else oldSpecifier

/-- Stable insertion of a barrel export into a list sorted by descending
start offset. -/
def insertBarrelDesc (b : BarrelExport) : List BarrelExport → List BarrelExport
  | [] => [b]
  | x :: xs => if b.start ≤ x.start then x :: insertBarrelDesc b xs else b :: x :: xs

/-- Sort barrel exports by descending start offset. -/
def sortBarrelDesc (l : List BarrelExport) : List BarrelExport :=
  l.foldr insertBarrelDesc []

/-- Model of BarrelAnalyzer.updateBarrelExports: per barrel file (in first
appearance order, each saved once), replace every affected specifier span of
the analyzer's snapshot content - the ts-morph project holds the content read
at construction, before the move - and write the result into the current
file system. -/
def updateBarrelExports (_st : MoverState) (origFs fs : FS)
    (barrelExports : List BarrelExport) (newPath : String) : FS :=
  (dedup (barrelExports.map (·.filePath))).foldl (fun fs filePath =>
    match readFileQ origFs filePath with
    | none => fs
    | some content =>
      let entries := sortBarrelDesc (barrelExports.filter fun b => b.filePath == filePath)
      let newContent := entries.foldl (fun content entry =>
        let newModuleSpecifier :=
          calculateNewModuleSpecifier entry.moduleSpecifier filePath newPath
        TypeScriptFileMover.spliceReference content newModuleSpecifier
          entry.start entry.endPos) content
      writeFileQ fs filePath newContent) fs

end BarrelAnalyzer

namespace TypeScriptFileMover

/-- Model of TypeScriptFileMover.moveFile: validation, scan, plan, barrel
analysis, then - outside dry-run mode - directory creation, rename, import
rewrites, barrel updates and the report of the total update count. The
result pairs the outcome (an error message, or the reported count of updated
files) with the final file system. The recursive barrel path is absent
because shouldUseRecursiveBarrelHandling always returns false in the source,
so the simple analysis result is always the one applied. -/
def moveFile (st : MoverState) (fs : FS) (sourcePath destPath : String) :
    Except String Nat × FS :=
  let resolvedSource := resolvePath st.projectRoot sourcePath
  let resolvedDest := resolveDestination st sourcePath destPath
  if !existsSync fs resolvedSource then
    (Except.error ("Source file does not exist: " ++ sourcePath), fs)
  else if !(extnamePath resolvedSource == ".ts" || extnamePath resolvedSource == ".tsx") then
    (Except.error ("Source must be a TypeScript file (.ts or .tsx): " ++ sourcePath), fs)
  else if !st.dryRun && existsSync fs resolvedDest then
    (Except.error ("Destination already exists: " ++ resolvedDest), fs)
  else
    let affectedFiles := findAffectedFiles st fs resolvedSource
    let updates := calculateImportUpdates st fs resolvedSource resolvedDest affectedFiles
    let barrelAnalysisResult :=
      if st.updateBarrels then some (BarrelAnalyzer.analyzeBarrelImpact st fs resolvedSource)
      else none
    if st.dryRun then
      let barrelFiles := match barrelAnalysisResult with
        | some result => result.1.length
        | none => 0
      (Except.ok (updates.length + barrelFiles), fs)
    else
      let fs1 := mkdirpQ fs (dirnameAbs resolvedDest)
      let fs2 := renameQ fs1 resolvedSource resolvedDest
      let fs3 := updateImportStatements st fs2 updates
      match barrelAnalysisResult with
      | some result =>
        let fs4 := BarrelAnalyzer.updateBarrelExports st fs fs3 result.1 resolvedDest
        (Except.ok (updates.length + result.1.length), fs4)
      | none => (Except.ok (updates.length + 0), fs3)

end TypeScriptFileMover

end MoveTs

namespace MoveTs

/-! ### ConfigLoader.loadTsConfigPaths (src/config-loader.ts) -/

/-- The parsed content of one tsconfig file relevant to path loading: its
resolved path, the optional baseUrl, and the compilerOptions.paths table when
present (absent also for files that failed to parse, which the source skips
with a warning). -/
structure TsConfigDoc where
  configPath : String
  baseUrl : Option String
  paths : Option (List (String × List String))
deriving Repr

/-- Model of the JS Map.set: replace the value in place when the key exists,
append the pair otherwise. -/
def setAssoc (m : List (String × α)) (k : String) (v : α) : List (String × α) :=
  if m.any (fun p => p.1 == k) then
    m.map fun p => if p.1 == k then (k, v) else p
  else m ++ [(k, v)]

/-- Model of the JS Map.get. -/
def lookupAssoc (m : List (String × α)) (k : String) : Option α :=
  (m.find? fun p => p.1 == k).map (·.2)

/-- Derivation of the per-alias path mapping list from one tsconfig entry, as
in ConfigLoader.loadTsConfigPaths. -/
def mkPathInfos (aliasKey : String) (patterns : List String) (basePath : String) :
    List PathMappingInfo :=
  patterns.map fun pathPattern =>
    { aliasRaw := aliasKey,
      aliasPattern := stripStarSuffix aliasKey,
      pathPattern := stripStarSuffix pathPattern,
      basePath := basePath }

/-- The base path of one tsconfig document: its baseUrl, defaulted to the dot,
resolved against the config file directory. -/
def tsConfigBasePath (cfg : TsConfigDoc) : String :=
  resolvePath (dirnameAbs cfg.configPath) (cfg.baseUrl.getD ".")

/-- Model of ConfigLoader.loadTsConfigPaths over the parsed tsconfig files in
glob processing order: each alias entry is written into the map with Map.set,
so a later file overwrites the list held for an alias it shares with an
earlier file. -/
def loadTsConfigPaths (configs : List TsConfigDoc) :
    List (String × List PathMappingInfo) :=
  configs.foldl (fun acc cfg =>
    match cfg.paths with
    | none => acc
    | some entries =>
      let basePath := tsConfigBasePath cfg
      entries.foldl (fun acc entry =>
        setAssoc acc entry.1 (mkPathInfos entry.1 entry.2 basePath)) acc) []

/-! ### A concrete parsing collaborator for concrete runs

The parsing service is external to the specified core (the source delegates
to the TypeScript compiler API). For concrete file systems used in witnesses
and counterexamples we model it for contents made of one import or re-export
statement per line with a double-quoted specifier: per the collaborator
contract, each reference carries the specifier text and the span of its
quoted text (start at the opening quote, endPos one past the closing quote). -/

/-- References of one line at a given offset: a line starting with the import
keyword or the export keyword contributes the span between its first two
double quotes. -/
def miniParseLine (offset : Nat) (line : String) : List ImportReference :=
  let isImport := strStarts line "import"
  let isExport := strStarts line "export"
  if isImport || isExport then
    match findIdxChar '"' line.data with
    | none => []
    | some i =>
      match findIdxChar '"' (line.data.drop (i + 1)) with
      | none => []
      | some j =>
        [{ specifier := String.mk ((line.data.drop (i + 1)).take j),
           start := offset + i,
           endPos := offset + i + j + 2,
           isExport := isExport }]
  else []

/-- Accumulating scan of the lines of a content string. -/
def miniParseLines : Nat → List String → List ImportReference
  | _, [] => []
  | offset, line :: rest =>
    miniParseLine offset line ++ miniParseLines (offset + line.data.length + 1) rest

/-- The concrete parsing collaborator over line-structured content. -/
def miniParse (content : String) : List ImportReference :=
  miniParseLines 0 (splitChar '\n' content)

end MoveTs

namespace MoveTs

/-! ### Helper lemmas -/

/-- A findSome? probe over images equals a find? over the mapped candidates. -/
lemma findSome?_probe (fs : FS) (f : String → String) (l : List String) :
    (l.findSome? fun e => if existsSync fs (f e) then some (f e) else none) =
      (l.map f).find? (existsSync fs) := by
  induction l with
  | nil => rfl
  | cons a as ih =>
    by_cases h : existsSync fs (f a) = true
    · simp [List.findSome?_cons, List.find?_cons, h]
    · simp only [Bool.not_eq_true] at h
      simp [List.findSome?_cons, List.find?_cons, h, ih]

/-! ### Claim C4: extension probing order of PathResolver.resolveWithExtensions -/

/--
Claim C4: for every base path, the shared extension probing used by forward
resolution probes, in order, the exact path, then the path with each
recognized source extension appended, then the path as a directory containing
an index file with each recognized extension; it returns the first probe that
exists on the modelled disk and none when no probe exists, and it is a total
function (a not-found outcome is the none value, not a failure).
-/
theorem claim_C4_resolve_with_extensions_probe_order (fs : FS) (basePath : String) :
    PathResolver.resolveWithExtensions fs basePath =
      (basePath :: (extensions.map fun ext => basePath ++ ext)
          ++ extensions.map fun ext => joinPath basePath ("index" ++ ext)).find?
        (existsSync fs) := by
  unfold PathResolver.resolveWithExtensions
  by_cases h : existsSync fs basePath = true
  · simp [List.find?_cons, h]
  · simp only [Bool.not_eq_true] at h
    rw [findSome?_probe fs (fun ext => basePath ++ ext) extensions,
      findSome?_probe fs (fun ext => joinPath basePath ("index" ++ ext)) extensions]
    cases hA : (extensions.map fun ext => basePath ++ ext).find? (existsSync fs) with
    | some p => simp [List.find?_cons, h, List.find?_append, hA]
    | none => simp [List.find?_cons, h, List.find?_append, hA]

end MoveTs

namespace MoveTs

/-! ### Claim C3: the relative recalculation -/

/-- Stripping of any recognized source extension, following the words of
claim C3 with the recognized source extensions of the probing list. -/
def stripRecognizedExt (s : String) : String :=
  match extensions.find? fun ext => strEnds s ext with
  | some ext => takeChars s (s.data.length - ext.data.length)
  | none => s

/-- Definition following the words of claim C3: the relative path from the
directory of the importing file to the new path, backslashes converted to
slashes, any recognized source extension stripped, and a dot-slash prefix
added when the result would not otherwise start with a dot. -/
def relativeRecalcClaimC3 (fromFile newPath : String) : String :=
  let rel := stripRecognizedExt (backslashToSlash (relativePath (dirnameAbs fromFile) newPath))
  if !strStarts rel "." then "./" ++ rel else rel

/--
Counterexample to claim C3 as stated: moving to a destination ending in the
recognized source extension .js, the source keeps the extension in the
specifier - the code strips only .ts and .tsx - while the claim as worded
requires any recognized source extension to be stripped.
-/
theorem claim_C3_counterexample :
    RelativePathResolver.calculateNewImportPath "./old" "/p/a.ts" "/p/b.js" = some "./b.js"
      ∧ relativeRecalcClaimC3 "/p/a.ts" "/p/b.js" = "./b"
      ∧ strEnds "./b.js" ".js" = true
      ∧ ("./b.js" : String) ≠ "./b" := by
  refine ⟨by decide, by decide, by decide, by decide⟩

/-- Definition following the words of claim C3 amended as the counterexample
forces: only a .ts or .tsx extension is stripped. -/
def relativeRecalcAmendedC3 (fromFile newPath : String) : String :=
  let rel := stripTsTsx (backslashToSlash (relativePath (dirnameAbs fromFile) newPath))
  if !strStarts rel "." then "./" ++ rel else rel

/--
Claim C3 (amended): for every importing file and every new absolute path, the
relative recalculation never fails - it returns some specifier - and the
specifier equals the relative path from the directory of the importing file
to the new path, with backslashes converted to forward slashes, a .ts or .tsx
extension stripped (extensions .js and .jsx are kept), and a dot-slash prefix
added when the result would not otherwise start with a dot.
-/
theorem claim_C3_relative_recalculation_amended (oldSpecifier fromFile newPath : String) :
    RelativePathResolver.calculateNewImportPath oldSpecifier fromFile newPath =
      some (relativeRecalcAmendedC3 fromFile newPath) := rfl

end MoveTs

namespace MoveTs

/-! ### Claim C10: alias collisions in ConfigLoader.loadTsConfigPaths -/

/-- find? over an append: the left list is searched first. -/
lemma find?_append_or {α : Type} (l₁ l₂ : List α) (p : α → Bool) :
    (l₁ ++ l₂).find? p = (l₁.find? p).or (l₂.find? p) := by
  induction l₁ with
  | nil => simp
  | cons a as ih =>
    by_cases h : p a = true
    · simp [List.find?_cons, h]
    · simp only [Bool.not_eq_true] at h
      simp [List.find?_cons, h, ih]

/-- When no entry of m has the key, the find? for that key fails on m. -/
lemma find?_key_eq_none {α : Type} (m : List (String × α)) (k : String)
    (h : m.any (fun p => p.1 == k) = false) :
    m.find? (fun p => p.1 == k) = none := by
  induction m with
  | nil => rfl
  | cons a as ih =>
    simp only [List.any_cons, Bool.or_eq_false_iff] at h
    simp [List.find?_cons, h.1, ih h.2]

/-- When some entry of m has the key, the find? for that key over the
overwritten map returns the overwriting pair. -/
lemma find?_map_overwrite {α : Type} (m : List (String × α)) (k : String) (v : α)
    (h : m.any (fun p => p.1 == k) = true) :
    (m.map fun p => if p.1 == k then (k, v) else p).find? (fun p => p.1 == k) =
      some (k, v) := by
  induction m with
  | nil => simp at h
  | cons a as ih =>
    by_cases hak : a.1 = k
    · have h1 : (a.1 == k) = true := by simp [hak]
      simp only [List.map_cons, h1, if_true, List.find?_cons, beq_self_eq_true]
    · have hak2 : (a.1 == k) = false := by simp [hak]
      simp only [List.any_cons, hak2, Bool.false_or] at h
      simp only [List.map_cons, hak2, Bool.false_eq_true, if_false, List.find?_cons]
      exact ih h

/-- The find? for another key ignores the overwrite of key k. -/
lemma find?_map_overwrite_ne {α : Type} (m : List (String × α)) (k k2 : String) (v : α)
    (h : k2 ≠ k) :
    ((m.map fun p => if p.1 == k then (k, v) else p).find? fun p => p.1 == k2).map (·.2) =
      (m.find? fun p => p.1 == k2).map (·.2) := by
  induction m with
  | nil => rfl
  | cons a as ih =>
    by_cases hak : a.1 = k
    · have h1 : (a.1 == k) = true := by simp [hak]
      have h2 : ((k : String) == k2) = false := by simp [Ne.symm h]
      have h3 : (a.1 == k2) = false := by simp [hak, Ne.symm h]
      simp only [List.map_cons, h1, if_true, List.find?_cons, h2, h3]
      exact ih
    · have h1 : (a.1 == k) = false := by simp [hak]
      by_cases ha2 : a.1 = k2
      · have h2 : (a.1 == k2) = true := by simp [ha2]
        simp only [List.map_cons, h1, Bool.false_eq_true, if_false, List.find?_cons, h2]
      · have h2 : (a.1 == k2) = false := by simp [ha2]
        simp only [List.map_cons, h1, Bool.false_eq_true, if_false, List.find?_cons, h2]
        exact ih

/-- Lookup after a Map.set: the written key reads back the written value and
every other key is unchanged. -/
lemma lookupAssoc_setAssoc {α : Type} (m : List (String × α)) (k k2 : String) (v : α) :
    lookupAssoc (setAssoc m k v) k2 = if k2 = k then some v else lookupAssoc m k2 := by
  unfold setAssoc lookupAssoc
  by_cases hmem : m.any (fun p => p.1 == k) = true
  · rw [if_pos hmem]
    by_cases hk : k2 = k
    · subst hk
      rw [if_pos rfl, find?_map_overwrite m k2 v hmem]
      rfl
    · rw [if_neg hk]
      exact find?_map_overwrite_ne m k k2 v hk
  · simp only [Bool.not_eq_true] at hmem
    rw [if_neg (by simp [hmem]), find?_append_or]
    by_cases hk : k2 = k
    · subst hk
      rw [find?_key_eq_none m k2 hmem, if_pos rfl]
      simp [List.find?_cons, Option.or]
    · have h2 : ((k : String) == k2) = false := by simp [Ne.symm hk]
      rw [if_neg hk]
      cases hfind : m.find? (fun p => p.1 == k2) with
      | some q => simp [Option.or, hfind]
      | none => simp [Option.or, hfind, List.find?_cons, h2]

/-- What one tsconfig document contributes for one alias: the mapping list of
its last paths entry carrying that alias, when the document has a paths table
containing it. -/
def tsConfigContribution (cfg : TsConfigDoc) (aliasKey : String) :
    Option (List PathMappingInfo) :=
  match cfg.paths with
  | none => none
  | some entries =>
    (entries.reverse.find? fun e => e.1 == aliasKey).map fun e =>
      mkPathInfos aliasKey e.2 (tsConfigBasePath cfg)

/-- Lookup after folding the entries of one config over an accumulator map. -/
lemma lookupAssoc_foldl_entries (entries : List (String × List String))
    (m : List (String × List PathMappingInfo)) (basePath : String) (aliasKey : String) :
    lookupAssoc (entries.foldl (fun acc entry =>
        setAssoc acc entry.1 (mkPathInfos entry.1 entry.2 basePath)) m) aliasKey =
      match entries.reverse.find? (fun e => e.1 == aliasKey) with
      | some e => some (mkPathInfos aliasKey e.2 basePath)
      | none => lookupAssoc m aliasKey := by
  induction entries generalizing m with
  | nil => simp
  | cons e rest ih =>
    simp only [List.foldl_cons, List.reverse_cons]
    rw [ih, find?_append_or]
    cases hrest : rest.reverse.find? (fun p => p.1 == aliasKey) with
    | some q => simp [Option.or]
    | none =>
      by_cases hk : e.1 = aliasKey
      · have h1 : (e.1 == aliasKey) = true := by simp [hk]
        subst hk
        simp [Option.or, List.find?_cons, h1, lookupAssoc_setAssoc]
      · have h1 : (e.1 == aliasKey) = false := by simp [hk]
        have hk2 : aliasKey ≠ e.1 := Ne.symm hk
        simp [Option.or, List.find?_cons, h1, lookupAssoc_setAssoc, hk2]

/-- Lookup after folding a list of config documents over an accumulator map. -/
lemma lookupAssoc_loadTsConfigPaths_aux (configs : List TsConfigDoc)
    (m : List (String × List PathMappingInfo)) (aliasKey : String) :
    lookupAssoc (configs.foldl (fun acc cfg =>
        match cfg.paths with
        | none => acc
        | some entries =>
          let basePath := tsConfigBasePath cfg
          entries.foldl (fun acc entry =>
            setAssoc acc entry.1 (mkPathInfos entry.1 entry.2 basePath)) acc) m) aliasKey =
      match configs.reverse.findSome? (fun cfg => tsConfigContribution cfg aliasKey) with
      | some v => some v
      | none => lookupAssoc m aliasKey := by
  induction configs generalizing m with
  | nil => simp
  | cons cfg rest ih =>
    simp only [List.foldl_cons, List.reverse_cons]
    rw [List.findSome?_append, ih]
    have hsingle : [cfg].findSome? (fun c => tsConfigContribution c aliasKey) =
        tsConfigContribution cfg aliasKey := by
      cases h : tsConfigContribution cfg aliasKey <;> simp [List.findSome?, h]
    rw [hsingle]
    cases hrest : rest.reverse.findSome? (fun c => tsConfigContribution c aliasKey) with
    | some v => simp [Option.or]
    | none =>
      cases hp : cfg.paths with
      | none =>
        simp only [hp, Option.or, tsConfigContribution]
      | some entries =>
        simp only [hp, Option.or, tsConfigContribution]
        rw [lookupAssoc_foldl_entries]
        cases hfind : entries.reverse.find? (fun e => e.1 == aliasKey) with
        | some e => simp
        | none => simp

/--
Claim C10: when the same path-alias key appears in the paths table of more
than one tsconfig file, loadTsConfigPaths keeps only the mapping list derived
from the last-processed tsconfig file carrying that alias (and, within one
file, its last entry for the alias); mapping lists from earlier-processed
files are silently discarded. Stated as: the loaded value of any alias is the
contribution of the last processed document that has that alias in its paths
table.
-/
theorem claim_C10_last_tsconfig_wins (configs : List TsConfigDoc) (aliasKey : String) :
    lookupAssoc (loadTsConfigPaths configs) aliasKey =
      configs.reverse.findSome? (fun cfg => tsConfigContribution cfg aliasKey) := by
  unfold loadTsConfigPaths
  rw [lookupAssoc_loadTsConfigPaths_aux]
  cases h : configs.reverse.findSome? (fun cfg => tsConfigContribution cfg aliasKey) with
  | some v => simp
  | none => simp [lookupAssoc]

end MoveTs

namespace MoveTs

/-! ### Concrete fixtures for witnesses and counterexamples -/

/-- A mover over project root slash-p with default options (barrel updates
on, dry run off), no tsconfig paths, no package imports, no workspaces, and
the concrete parsing collaborator. -/
def stP : MoverState :=
  { projectRoot := "/p", updateBarrels := true, dryRun := false,
    tsPaths := none, pkgImports := none, workspaces := [], parse := miniParse }

/-- The same mover in dry-run mode. -/
def stPDry : MoverState :=
  { stP with dryRun := true }

/-- A project with a file a.ts with no incoming references and a file x.ts
whose only import specifier dangles: it resolves to nothing while a.ts exists
at its original location. -/
def fsP : FS :=
  { files := [("/p/a.ts", "export const a = 1;\n"),
              ("/p/x.ts", "import \"./b\";\n")],
    dirs := ["/p"] }

/-- A project with an isolated pair of files that do not reference each
other. -/
def fsIso : FS :=
  { files := [("/p/solo.ts", "export const s = 1;\n"),
              ("/p/other.ts", "export const o = 2;\n")],
    dirs := ["/p"] }

/-- A project with a file importing itself through a relative specifier. -/
def fsSelf : FS :=
  { files := [("/p/a.ts", "import \"./a\";\n")],
    dirs := ["/p"] }

/-- A mover over project root slash-q with default options and the concrete
parsing collaborator. -/
def stQ : MoverState :=
  { projectRoot := "/q", updateBarrels := true, dryRun := false,
    tsPaths := none, pkgImports := none, workspaces := [], parse := miniParse }

/-- A project with one barrel whose two re-export declarations both point at
helper.ts through the specifier dot-slash-helper-dot-js, which the main
resolution cannot resolve as an import (no helper.js.ts exists) but the
barrel resolution can (it strips the stale extension first). -/
def fsQ : FS :=
  { files := [("/q/index.ts",
                "export * from \"./helper.js\";\nexport * from \"./helper.js\";\n"),
              ("/q/helper.ts", "export const h = 1;\n")],
    dirs := ["/q"] }

/-! ### Claim C1: fixed strategy order of the resolution coordinator -/

/-- A four-way first-some match chain over options equals findSome? over the
explicit candidate list. -/
lemma match_chain_eq_findSome (a b c d : Option String) :
    (match a with
     | some r => some r
     | none =>
       match b with
       | some r => some r
       | none =>
         match c with
         | some r => some r
         | none => d) = [a, b, c, d].findSome? id := by
  cases a <;> cases b <;> cases c <;> cases d <;> simp [List.findSome?]

/-- A four-way first-some match chain ending in a default equals the value of
findSome? over the candidate list, with the default when all fail. -/
lemma match_chain_getD (a b c d : Option String) (x : String) :
    (match a with
     | some r => r
     | none =>
       match b with
       | some r => r
       | none =>
         match c with
         | some r => r
         | none => d.getD x) = ([a, b, c, d].findSome? id).getD x := by
  cases a <;> cases b <;> cases c <;> cases d <;> simp [List.findSome?]

/--
Claim C1: for every specifier and importing file, forward resolution tries
the strategies in the fixed order workspace package, compiler path alias,
package subpath imports, relative, and returns the result of the first
strategy that yields an answer (a strategy whose configuration was not loaded
yields no answer); and backward recalculation, given the recorded new path,
tries the same strategies in the same fixed order and returns the first
answer, keeping the old specifier in the (for the relative strategy
impossible) case that all fail.
-/
theorem claim_C1_strategy_priority_order (st : MoverState) (fs : FS)
    (specifier fromFile oldSpecifier newPath : String) (reference : ImportReference)
    (h : reference.newPath = some newPath) :
    TypeScriptFileMover.resolveImportPath st fs specifier fromFile =
      [ WorkspaceResolver.resolveImportPath st.workspaces fs specifier fromFile,
        st.tsPaths.elim none fun tsConfigPaths =>
          TsConfigPathResolver.resolveImportPath tsConfigPaths fs specifier fromFile,
        st.pkgImports.elim none fun packageImports =>
          PackageImportsResolver.resolveImportPath packageImports fs specifier fromFile,
        RelativePathResolver.resolveImportPath fs specifier fromFile ].findSome? id
    ∧ TypeScriptFileMover.calculateNewImportPath st oldSpecifier fromFile reference =
      ([ WorkspaceResolver.calculateNewImportPath st.workspaces oldSpecifier fromFile newPath,
         st.tsPaths.elim none fun tsConfigPaths =>
           TsConfigPathResolver.calculateNewImportPath tsConfigPaths oldSpecifier fromFile newPath,
         st.pkgImports.elim none fun packageImports =>
           PackageImportsResolver.calculateNewImportPath packageImports oldSpecifier fromFile newPath,
         RelativePathResolver.calculateNewImportPath oldSpecifier fromFile newPath
       ].findSome? id).getD oldSpecifier := by
  constructor
  · unfold TypeScriptFileMover.resolveImportPath
    rw [match_chain_eq_findSome]
    cases st.tsPaths <;> cases st.pkgImports <;> rfl
  · obtain ⟨rspec, rstart, rend, rexp, rnew⟩ := reference
    simp only at h
    subst h
    simp only [TypeScriptFileMover.calculateNewImportPath]
    rw [match_chain_getD]
    cases st.tsPaths <;> cases st.pkgImports <;> rfl

/-- Witness for claim C1 at a concrete input: the recalculation of a relative
specifier after the move of a.ts to b.ts in the fixture project. -/
theorem claim_C1_strategy_priority_order_witness :
    TypeScriptFileMover.calculateNewImportPath stP "./b" "/p/x.ts"
        { specifier := "./b", start := 7, endPos := 12, isExport := false,
          newPath := some "/p/a.ts" } = "./a" :=
  ((claim_C1_strategy_priority_order stP fsP "./b" "/p/x.ts" "./b" "/p/a.ts"
      { specifier := "./b", start := 7, endPos := 12, isExport := false,
        newPath := some "/p/a.ts" } rfl).2).trans (by decide)

end MoveTs

namespace MoveTs

/-! ### Claim C5: the affected-file criterion and the path normalization -/

/-- A boolean match on an optional resolution succeeds exactly when the
resolution yields a path satisfying the test. -/
lemma optMatch_eq_true (o : Option String) (f : String → Bool) :
    (match o with
     | some r => f r
     | none => false) = true ↔ ∃ p, o = some p ∧ f p = true := by
  cases o <;> simp

/--
Counterexample to claim C5 as stated: with a moved file whose own specifier
resolves to itself, the file has an import specifier that resolves, under the
slash-normalized lowercased comparison, to a path equal to the moved path,
yet it is not marked affected: the scan excludes the moved file itself, which
the claim as worded does not allow for.
-/
theorem claim_C5_counterexample :
    TypeScriptFileMover.findAffectedFiles stP fsSelf "/p/a.ts" = []
      ∧ (TypeScriptFileMover.analyzeFile stP fsSelf "/p/a.ts").map (·.specifier) = ["./a"]
      ∧ TypeScriptFileMover.resolveImportPath stP fsSelf "./a" "/p/a.ts" = some "/p/a.ts"
      ∧ TypeScriptFileMover.normalizePathForMatching "/p/a.ts" =
          TypeScriptFileMover.normalizePathForMatching "/p/a.ts"
      ∧ "/p/a.ts" ∈ TypeScriptFileMover.globTsFiles stP fsSelf := by
  refine ⟨by decide, by decide, by decide, rfl, by decide⟩

/--
Claim C5 (amended): a scanned project file other than the moved file itself
is marked affected by a move if and only if at least one of its import or
export specifiers resolves to a path equal to the moved file path under the
slash-normalized, lowercased comparison (backslashes replaced by slashes and
the result lowercased); the moved file itself is never marked. The same
normalization is the one applied in the barrel analysis: a project file other
than a barrel imports from that barrel exactly when one of its import
specifiers resolves, under the same normalizePathForMatching comparison, to a
path equal to the barrel path.
-/
theorem claim_C5_affected_iff_normalized_match (st : MoverState) (fs : FS)
    (sourcePath file : String) :
    (file ∈ TypeScriptFileMover.findAffectedFiles st fs sourcePath ↔
      file ∈ TypeScriptFileMover.globTsFiles st fs ∧ file ≠ sourcePath ∧
        ∃ ref ∈ TypeScriptFileMover.analyzeFile st fs file, ∃ p,
          TypeScriptFileMover.resolveImportPath st fs ref.specifier file = some p ∧
          TypeScriptFileMover.normalizePathForMatching p =
            TypeScriptFileMover.normalizePathForMatching sourcePath)
    ∧ (file ∈ BarrelAnalyzer.findBarrelImports st fs sourcePath ↔
      file ∈ BarrelAnalyzer.projectFiles st fs ∧ file ≠ sourcePath ∧
        ∃ ref ∈ TypeScriptFileMover.analyzeFile st fs file, ref.isExport = false ∧ ∃ p,
          BarrelAnalyzer.resolveModuleSpecifier fs ref.specifier file = some p ∧
          TypeScriptFileMover.normalizePathForMatching p =
            TypeScriptFileMover.normalizePathForMatching sourcePath) := by
  constructor
  · unfold TypeScriptFileMover.findAffectedFiles
    rw [List.mem_filter]
    simp only [Bool.and_eq_true, bne_iff_ne, ne_eq, List.any_eq_true, optMatch_eq_true,
      beq_iff_eq]
  · unfold BarrelAnalyzer.findBarrelImports
    rw [List.mem_filter]
    simp only [Bool.and_eq_true, bne_iff_ne, ne_eq, List.any_eq_true, optMatch_eq_true,
      beq_iff_eq, Bool.not_eq_true']

end MoveTs

namespace MoveTs

/-! ### Claim C2: precondition errors abort before any mutation -/

/--
Claim C2: moveFile fails with a descriptive error - and the file system,
files and directories alike, is left unchanged, so nothing is renamed,
created or rewritten - whenever the resolved source does not exist, the
source extension is neither .ts nor .tsx, or, outside dry-run mode, the
resolved destination already exists; in particular a destination collision
leaves every project file, including the source, unchanged.
-/
theorem claim_C2_precondition_errors_abort_before_mutation (st : MoverState) (fs : FS)
    (sourcePath destPath : String)
    (h : existsSync fs (resolvePath st.projectRoot sourcePath) = false
       ∨ (extnamePath (resolvePath st.projectRoot sourcePath) ≠ ".ts"
          ∧ extnamePath (resolvePath st.projectRoot sourcePath) ≠ ".tsx")
       ∨ (st.dryRun = false
          ∧ existsSync fs (TypeScriptFileMover.resolveDestination st sourcePath destPath)
              = true)) :
    ∃ msg, TypeScriptFileMover.moveFile st fs sourcePath destPath = (Except.error msg, fs) := by
  unfold TypeScriptFileMover.moveFile
  by_cases h1 : existsSync fs (resolvePath st.projectRoot sourcePath) = true
  · rcases h with hmiss | hext | hcoll
    · rw [h1] at hmiss
      cases hmiss
    · have h2 : (extnamePath (resolvePath st.projectRoot sourcePath) == ".ts"
          || extnamePath (resolvePath st.projectRoot sourcePath) == ".tsx") = false := by
        simp [hext.1, hext.2]
      refine ⟨"Source must be a TypeScript file (.ts or .tsx): " ++ sourcePath, ?_⟩
      simp [h1, h2]
    · by_cases h2 : (extnamePath (resolvePath st.projectRoot sourcePath) == ".ts"
          || extnamePath (resolvePath st.projectRoot sourcePath) == ".tsx") = true
      · refine ⟨"Destination already exists: "
            ++ TypeScriptFileMover.resolveDestination st sourcePath destPath, ?_⟩
        simp [h1, h2, hcoll.1, hcoll.2]
      · refine ⟨"Source must be a TypeScript file (.ts or .tsx): " ++ sourcePath, ?_⟩
        simp [h1, h2]
  · simp only [Bool.not_eq_true] at h1
    refine ⟨"Source file does not exist: " ++ sourcePath, ?_⟩
    simp [h1]

/-- Witness for claim C2 at a concrete input: moving a.ts onto the existing
x.ts is a destination collision and leaves the fixture project unchanged. -/
theorem claim_C2_precondition_errors_abort_before_mutation_witness :
    ∃ msg, TypeScriptFileMover.moveFile stP fsP "a.ts" "x.ts" = (Except.error msg, fsP) :=
  claim_C2_precondition_errors_abort_before_mutation stP fsP "a.ts" "x.ts"
    (Or.inr (Or.inr ⟨rfl, by decide⟩))

/-! ### Claim C8: dry-run mode mutates nothing -/

/--
Claim C8: with the dryRun option, moveFile leaves the file system - files and
directories - untouched on every path: no rename, no directory creation, no
file write; and when validation passes it still performs the reference scan,
the update planning and the barrel analysis, reporting the planned change-set
size computed from them.
-/
theorem claim_C8_dry_run_mutates_nothing (st : MoverState) (fs : FS)
    (sourcePath destPath : String) (hdry : st.dryRun = true) :
    (TypeScriptFileMover.moveFile st fs sourcePath destPath).2 = fs
    ∧ (existsSync fs (resolvePath st.projectRoot sourcePath) = true →
       (extnamePath (resolvePath st.projectRoot sourcePath) = ".ts"
         ∨ extnamePath (resolvePath st.projectRoot sourcePath) = ".tsx") →
       (TypeScriptFileMover.moveFile st fs sourcePath destPath).1 = Except.ok
         ((TypeScriptFileMover.calculateImportUpdates st fs
             (resolvePath st.projectRoot sourcePath)
             (TypeScriptFileMover.resolveDestination st sourcePath destPath)
             (TypeScriptFileMover.findAffectedFiles st fs
               (resolvePath st.projectRoot sourcePath))).length
          + if st.updateBarrels then
              (BarrelAnalyzer.analyzeBarrelImpact st fs
                (resolvePath st.projectRoot sourcePath)).1.length
            else 0)) := by
  constructor
  · unfold TypeScriptFileMover.moveFile
    by_cases h1 : existsSync fs (resolvePath st.projectRoot sourcePath) = true
    · by_cases h2 : (extnamePath (resolvePath st.projectRoot sourcePath) == ".ts"
          || extnamePath (resolvePath st.projectRoot sourcePath) == ".tsx") = true
      · simp [h1, h2, hdry]
      · simp [h1, h2]
    · simp [h1]
  · intro hex hext
    have h2 : (extnamePath (resolvePath st.projectRoot sourcePath) == ".ts"
        || extnamePath (resolvePath st.projectRoot sourcePath) == ".tsx") = true := by
      rcases hext with h | h <;> simp [h]
    unfold TypeScriptFileMover.moveFile
    cases hub : st.updateBarrels <;> simp [hex, h2, hdry, hub]

/-- Witness for claim C8 at a concrete input: a dry-run move in the fixture
project leaves the file system unchanged. -/
theorem claim_C8_dry_run_mutates_nothing_witness :
    (TypeScriptFileMover.moveFile stPDry fsP "a.ts" "sub/a.ts").2 = fsP :=
  (claim_C8_dry_run_mutates_nothing stPDry fsP "a.ts" "sub/a.ts" rfl).1

end MoveTs

namespace MoveTs

/-! ### Claim C7: extension convention of rewritten barrel re-exports -/

/-- A char list starts every list it is a prefix of by construction. -/
lemma startsList_self_append (l m : List Char) : startsList l (l ++ m) = true := by
  induction l with
  | nil => rfl
  | cons c cs ih => simp [startsList, ih]

/-- Appending a suffix makes the string end with that suffix. -/
lemma strEnds_append_self (a e : String) : strEnds (a ++ e) e = true := by
  unfold strEnds
  rw [String.data_append, List.reverse_append]
  exact startsList_self_append e.data.reverse a.data.reverse

/--
Counterexample to claim C7 as stated: a barrel re-exports the moved file
through the extensionless specifier dot-slash-helper; the file moves to a
destination whose basename carries a dotted suffix before its extension.
The rewrite strips only the final extension of the new relative path, so the
new specifier ends in the dot-suffix .v2 - it has a trailing extension by the
same dot-word test the source itself applies to specifiers - although the old
specifier had none.
-/
theorem claim_C7_counterexample :
    BarrelAnalyzer.calculateNewModuleSpecifier "./helper" "/p/index.ts" "/p/sub/helper.v2.ts"
        = "./sub/helper.v2"
      ∧ matchDotWordExt "./helper" = none
      ∧ matchDotWordExt "./sub/helper.v2" = some ".v2" := by
  refine ⟨by decide, by decide, by decide⟩

/--
Claim C7 (amended): when a barrel re-export with a relative specifier
pointing at the moved file is rewritten, the old extension convention is
preserved in this sense: if the old specifier ended with an explicit
extension (a trailing dot-word suffix), the new specifier ends with that same
extension string; if the old specifier had no extension, the new specifier is
the dot-prefixed new relative path with its single final extension removed -
so it carries no extension whenever the destination basename has no further
dotted suffix, but keeps an inner dotted suffix when it does.
-/
theorem claim_C7_barrel_extension_convention_amended
    (oldSpecifier barrelFile newPath : String)
    (hrel : strStarts oldSpecifier "." = true) :
    (∀ e, matchDotWordExt oldSpecifier = some e →
      strEnds (BarrelAnalyzer.calculateNewModuleSpecifier oldSpecifier barrelFile newPath)
          e = true)
    ∧ (matchDotWordExt oldSpecifier = none →
      BarrelAnalyzer.calculateNewModuleSpecifier oldSpecifier barrelFile newPath =
        stripDotWordExt
          (if !strStarts (relativePath (dirnameAbs barrelFile) newPath) "." then
            "./" ++ relativePath (dirnameAbs barrelFile) newPath
          else relativePath (dirnameAbs barrelFile) newPath)) := by
  constructor
  · intro e he
    unfold BarrelAnalyzer.calculateNewModuleSpecifier
    simp only [hrel, if_true, he]
    exact strEnds_append_self _ e
  · intro he
    unfold BarrelAnalyzer.calculateNewModuleSpecifier
    simp only [hrel, if_true, he]

/-- Witness for claim C7 at a concrete input: the barrel-preservation
scenario keeps the explicit .js of the original re-export specifier. -/
theorem claim_C7_barrel_extension_convention_amended_witness :
    strEnds (BarrelAnalyzer.calculateNewModuleSpecifier "./helper.js" "/p/utils/index.ts"
        "/p/shared/helper.ts") ".js" = true :=
  (claim_C7_barrel_extension_convention_amended "./helper.js" "/p/utils/index.ts"
      "/p/shared/helper.ts" (by decide)).1 ".js" (by decide)

/-! ### Claim C9: the reported count of updated files -/

deriving instance DecidableEq for Except

/-- The number of files of the old file system whose content differs in the
new one (files that disappeared, such as the moved source, are not counted). -/
def countChangedFiles (old new : FS) : Nat :=
  (old.files.filter fun f =>
    match readFileQ new f.1 with
    | some c => c != f.2
    | none => false).length

/--
Counterexample to claim C9 as stated: a barrel with two re-export
declarations pointing at the moved file (and no resolvable import of it)
makes moveFile report two updated files while exactly one file - the barrel,
written once - changed content.
-/
theorem claim_C9_counterexample :
    (TypeScriptFileMover.moveFile stQ fsQ "helper.ts" "sub/helper.ts").1 = Except.ok 2
      ∧ countChangedFiles fsQ
          (TypeScriptFileMover.moveFile stQ fsQ "helper.ts" "sub/helper.ts").2 = 1 := by
  refine ⟨by decide, by decide⟩

/--
Claim C9 (amended): on a successful non-dry-run move, moveFile reports the
number of rewritten importing files plus the number of affected barrel
re-export entries; this sum can differ from the number of distinct files
whose content changed, because a barrel contributes one count per matching
re-export declaration and can additionally be counted among the rewritten
files that import the moved file.
-/
theorem claim_C9_reported_count_amended (st : MoverState) (fs : FS)
    (sourcePath destPath : String) (hdry : st.dryRun = false)
    (hex : existsSync fs (resolvePath st.projectRoot sourcePath) = true)
    (hext : extnamePath (resolvePath st.projectRoot sourcePath) = ".ts"
      ∨ extnamePath (resolvePath st.projectRoot sourcePath) = ".tsx")
    (hdst : existsSync fs (TypeScriptFileMover.resolveDestination st sourcePath destPath)
      = false) :
    (TypeScriptFileMover.moveFile st fs sourcePath destPath).1 = Except.ok
      ((TypeScriptFileMover.calculateImportUpdates st fs
          (resolvePath st.projectRoot sourcePath)
          (TypeScriptFileMover.resolveDestination st sourcePath destPath)
          (TypeScriptFileMover.findAffectedFiles st fs
            (resolvePath st.projectRoot sourcePath))).length
       + if st.updateBarrels then
           (BarrelAnalyzer.analyzeBarrelImpact st fs
             (resolvePath st.projectRoot sourcePath)).1.length
         else 0) := by
  have h2 : (extnamePath (resolvePath st.projectRoot sourcePath) == ".ts"
      || extnamePath (resolvePath st.projectRoot sourcePath) == ".tsx") = true := by
    rcases hext with h | h <;> simp [h]
  unfold TypeScriptFileMover.moveFile
  cases hub : st.updateBarrels <;> simp [hex, h2, hdry, hdst, hub]

/-- Witness for claim C9 at a concrete input: the double-re-export fixture
reports two updated files. -/
theorem claim_C9_reported_count_amended_witness :
    (TypeScriptFileMover.moveFile stQ fsQ "helper.ts" "sub/helper.ts").1 = Except.ok 2 :=
  (claim_C9_reported_count_amended stQ fsQ "helper.ts" "sub/helper.ts" rfl (by decide)
      (Or.inl (by decide)) (by decide)).trans (by decide)

end MoveTs

namespace MoveTs

/-! ### Claim C6: the round trip for files with no incoming references -/

/-- Recording a directory does not change the files. -/
lemma readFileQ_mkdirpQ (fs : FS) (d p : String) :
    readFileQ (mkdirpQ fs d) p = readFileQ fs p := by
  unfold mkdirpQ
  by_cases h : fs.dirs.any (· == d) = true <;> simp [h, readFileQ]

/-- Filtering out the entries of another key does not change a lookup. -/
lemma find?_filter_ne (l : List (String × String)) (p src : String) (h : p ≠ src) :
    (l.filter fun f => f.1 != src).find? (fun f => f.1 == p) =
      l.find? (fun f => f.1 == p) := by
  induction l with
  | nil => rfl
  | cons a as ih =>
    by_cases has : a.1 = src
    · have h1 : (a.1 != src) = false := by simp [has]
      have h2 : (a.1 == p) = false := by simp [has, Ne.symm h]
      simp [List.filter_cons, h1, List.find?_cons, h2, ih]
    · have h1 : (a.1 != src) = true := by simp [has]
      by_cases hap : a.1 = p
      · have h2 : (a.1 == p) = true := by simp [hap]
        simp [List.filter_cons, h1, List.find?_cons, h2]
      · have h2 : (a.1 == p) = false := by simp [hap]
        simp [List.filter_cons, h1, List.find?_cons, h2, ih]

/-- A rename does not change the content read at any third path. -/
lemma readFileQ_renameQ_ne (fs : FS) (src dst p : String)
    (h1 : p ≠ src) (h2 : p ≠ dst) :
    readFileQ (renameQ fs src dst) p = readFileQ fs p := by
  unfold renameQ
  cases hc : readFileQ fs src with
  | none => rfl
  | some c =>
    show readFileQ ⟨(fs.files.filter fun f => f.1 != src) ++ [(dst, c)], fs.dirs⟩ p = _
    unfold readFileQ
    rw [find?_append_or, find?_filter_ne fs.files p src h1]
    cases hf : fs.files.find? (fun f => f.1 == p) with
    | some q => simp [Option.or]
    | none =>
      have hd : ((dst, c).1 == p) = false := by simp [Ne.symm h2]
      simp [Option.or, List.find?_cons, hd]

/-- A move with no affected files and no affected barrels reports zero
updates and only renames the source (after recording the destination
directory): no other file is written. -/
lemma moveFile_no_incoming (st : MoverState) (fs : FS) (sourcePath destPath : String)
    (hdry : st.dryRun = false)
    (hex : existsSync fs (resolvePath st.projectRoot sourcePath) = true)
    (hext : extnamePath (resolvePath st.projectRoot sourcePath) = ".ts"
      ∨ extnamePath (resolvePath st.projectRoot sourcePath) = ".tsx")
    (hdst : existsSync fs (TypeScriptFileMover.resolveDestination st sourcePath destPath)
      = false)
    (haff : TypeScriptFileMover.findAffectedFiles st fs
      (resolvePath st.projectRoot sourcePath) = [])
    (hbar : st.updateBarrels = true →
      (BarrelAnalyzer.analyzeBarrelImpact st fs (resolvePath st.projectRoot sourcePath)).1
        = []) :
    TypeScriptFileMover.moveFile st fs sourcePath destPath =
      (Except.ok 0,
        renameQ
          (mkdirpQ fs
            (dirnameAbs (TypeScriptFileMover.resolveDestination st sourcePath destPath)))
          (resolvePath st.projectRoot sourcePath)
          (TypeScriptFileMover.resolveDestination st sourcePath destPath)) := by
  have h2 : (extnamePath (resolvePath st.projectRoot sourcePath) == ".ts"
      || extnamePath (resolvePath st.projectRoot sourcePath) == ".tsx") = true := by
    rcases hext with h | h <;> simp [h]
  unfold TypeScriptFileMover.moveFile
  cases hub : st.updateBarrels with
  | false =>
    simp [hex, h2, hdry, hdst, hub, haff, TypeScriptFileMover.calculateImportUpdates,
      TypeScriptFileMover.updateImportStatements]
  | true =>
    simp [hex, h2, hdry, hdst, hub, haff, hbar hub,
      TypeScriptFileMover.calculateImportUpdates,
      TypeScriptFileMover.updateImportStatements,
      BarrelAnalyzer.updateBarrelExports, BarrelAnalyzer.dedup]

/--
Counterexample to claim C6 as stated: a.ts has no incoming references - the
only other file carries the dangling import specifier dot-slash-b - yet after
moving a.ts to b.ts that specifier resolves to the moved file, so the move
back from b.ts to a.ts rewrites the other file: the round trip reports one
update and leaves x.ts with the specifier dot-slash-a instead of its original
dot-slash-b.
-/
theorem claim_C6_counterexample :
    TypeScriptFileMover.findAffectedFiles stP fsP "/p/a.ts" = []
      ∧ (BarrelAnalyzer.analyzeBarrelImpact stP fsP "/p/a.ts").1 = []
      ∧ (TypeScriptFileMover.moveFile stP fsP "a.ts" "b.ts").1 = Except.ok 0
      ∧ (TypeScriptFileMover.moveFile stP
          (TypeScriptFileMover.moveFile stP fsP "a.ts" "b.ts").2 "b.ts" "a.ts").1
            = Except.ok 1
      ∧ readFileQ (TypeScriptFileMover.moveFile stP
            (TypeScriptFileMover.moveFile stP fsP "a.ts" "b.ts").2 "b.ts" "a.ts").2
          "/p/x.ts" = some "import \"./a\";\n"
      ∧ readFileQ fsP "/p/x.ts" = some "import \"./b\";\n"
      ∧ some "import \"./a\";\n" ≠ some ("import \"./b\";\n") := by
  refine ⟨by decide, by decide, by decide, by decide, by decide, by decide, by decide⟩

/--
Claim C6 (amended): for a file with no incoming references, moving it from A
to B and then from B back to A leaves every other file byte-identical,
provided also that after the first move no reference resolves to the new
location B (a dangling specifier can begin to resolve once the file appears
at B, and the move back then rewrites its file): under no affected files and
no affected barrel entries for both moves, every file other than the two
locations reads back its original content after the round trip.
-/
theorem claim_C6_round_trip_amended (st : MoverState) (fs : FS)
    (aArg bArg f : String)
    (hdry : st.dryRun = false)
    (hex1 : existsSync fs (resolvePath st.projectRoot aArg) = true)
    (hext1 : extnamePath (resolvePath st.projectRoot aArg) = ".ts"
      ∨ extnamePath (resolvePath st.projectRoot aArg) = ".tsx")
    (hdst1 : existsSync fs (TypeScriptFileMover.resolveDestination st aArg bArg) = false)
    (haff1 : TypeScriptFileMover.findAffectedFiles st fs
      (resolvePath st.projectRoot aArg) = [])
    (hbar1 : st.updateBarrels = true →
      (BarrelAnalyzer.analyzeBarrelImpact st fs (resolvePath st.projectRoot aArg)).1 = [])
    (hex2 : existsSync (TypeScriptFileMover.moveFile st fs aArg bArg).2
      (resolvePath st.projectRoot bArg) = true)
    (hext2 : extnamePath (resolvePath st.projectRoot bArg) = ".ts"
      ∨ extnamePath (resolvePath st.projectRoot bArg) = ".tsx")
    (hdst2 : existsSync (TypeScriptFileMover.moveFile st fs aArg bArg).2
      (TypeScriptFileMover.resolveDestination st bArg aArg) = false)
    (haff2 : TypeScriptFileMover.findAffectedFiles st
      (TypeScriptFileMover.moveFile st fs aArg bArg).2
      (resolvePath st.projectRoot bArg) = [])
    (hbar2 : st.updateBarrels = true →
      (BarrelAnalyzer.analyzeBarrelImpact st (TypeScriptFileMover.moveFile st fs aArg bArg).2
        (resolvePath st.projectRoot bArg)).1 = [])
    (hf1 : f ≠ resolvePath st.projectRoot aArg)
    (hf2 : f ≠ TypeScriptFileMover.resolveDestination st aArg bArg)
    (hf3 : f ≠ resolvePath st.projectRoot bArg)
    (hf4 : f ≠ TypeScriptFileMover.resolveDestination st bArg aArg) :
    readFileQ (TypeScriptFileMover.moveFile st
        (TypeScriptFileMover.moveFile st fs aArg bArg).2 bArg aArg).2 f
      = readFileQ fs f := by
  have e1 := moveFile_no_incoming st fs aArg bArg hdry hex1 hext1 hdst1 haff1 hbar1
  rw [e1] at hex2 hdst2 haff2 hbar2 ⊢
  have e2 := moveFile_no_incoming st
    (renameQ (mkdirpQ fs
        (dirnameAbs (TypeScriptFileMover.resolveDestination st aArg bArg)))
      (resolvePath st.projectRoot aArg)
      (TypeScriptFileMover.resolveDestination st aArg bArg))
    bArg aArg hdry hex2 hext2 hdst2 haff2 hbar2
  rw [e2]
  rw [readFileQ_renameQ_ne _ _ _ _ hf3 hf4, readFileQ_mkdirpQ,
    readFileQ_renameQ_ne _ _ _ _ hf1 hf2, readFileQ_mkdirpQ]

/-- Witness for claim C6 at a concrete input: a round trip of the isolated
file solo.ts leaves other.ts byte-identical. -/
theorem claim_C6_round_trip_amended_witness :
    readFileQ (TypeScriptFileMover.moveFile stP
        (TypeScriptFileMover.moveFile stP fsIso "solo.ts" "moved.ts").2
        "moved.ts" "solo.ts").2 "/p/other.ts"
      = readFileQ fsIso "/p/other.ts" :=
  claim_C6_round_trip_amended stP fsIso "solo.ts" "moved.ts" "/p/other.ts"
    rfl (by decide) (Or.inl (by decide)) (by decide) (by decide) (fun _ => by decide)
    (by decide) (Or.inl (by decide)) (by decide) (by decide) (fun _ => by decide)
    (by decide) (by decide) (by decide) (by decide)

end MoveTs
